import Mathlib

/-!
Shallow embedding of the tic-tac-toe game engine from
`src/tic_tac_toe_frontend/App.tsx`, together with theorems checking the
natural-language specification against it.

The TypeScript types `Player`, `Cell = Player | null`, `Board = Cell[]`
become `Player`, `Option Player`, `List Cell`.  A JavaScript array read
`board[i]` yields `undefined` out of range; where the code only tests
truthiness (`getWinner`) we collapse `null`/`undefined` with `List.getD`,
and where the code distinguishes them (`prev[index] !== null` in
`applyMove`) we keep the distinction with `List.get?` on an `Int` index.
-/

namespace TicTacToe

/-- `type Player = 'X' | 'O'` -/
inductive Player
  | X
  | O
deriving DecidableEq, Repr, Fintype

/-- `type Cell = Player | null` -/
abbrev Cell := Option Player

/-- `type Board = Cell[]` -/
abbrev Board := List Cell

/-- The `WINNING_LINES` constant: 8 index triples (rows, columns, diagonals). -/
def WINNING_LINES : List (Nat × Nat × Nat) :=
  [(0, 1, 2), (3, 4, 5), (6, 7, 8),
   (0, 3, 6), (1, 4, 7), (2, 5, 8),
   (0, 4, 8), (2, 4, 6)]

/-- `createEmptyBoard()`: `Array.from({ length: 9 }, () => null)`. -/
def createEmptyBoard : Board := List.replicate 9 none

/-- `oppositePlayer(player)`. -/
def oppositePlayer : Player → Player
  | Player.X => Player.O
  | Player.O => Player.X

/-- JavaScript read `board[i]` as used in `getWinner`, where `null` and
`undefined` are both falsy and both fail `v === board[b]` for a mark `v`,
so they are collapsed to `none`. -/
def cellAt (board : Board) (i : Nat) : Cell := board.getD i none

/-- The `for (const line of WINNING_LINES)` loop body of `getWinner`:
`const [a, b, c] = line; const v = board[a];
if (v && v === board[b] && v === board[c]) return { winner: v, winningLine: [...line] }`. -/
def getWinnerAux (board : Board) : List (Nat × Nat × Nat) → Option Player × Option (List Nat)
  | [] => (none, none)
  | (a, b, c) :: rest =>
    match cellAt board a with
    | some v =>
      if cellAt board b = some v ∧ cellAt board c = some v then
        (some v, some [a, b, c])
      else getWinnerAux board rest
    | none => getWinnerAux board rest

/-- `getWinner(board)`: scan `WINNING_LINES`, return first matching line,
else `{ winner: null, winningLine: null }`. -/
def getWinner (board : Board) : Option Player × Option (List Nat) :=
  getWinnerAux board WINNING_LINES

/-- `isDraw(board)`: `board.every((c) => c !== null) && getWinner(board).winner === null`. -/
def isDraw (board : Board) : Bool :=
  board.all (fun c => decide (c ≠ none)) && decide ((getWinner board).1 = none)

/-- `type GameStatus = { kind: 'PLAYING'; ... } | { kind: 'WON'; ... } | { kind: 'DRAW' }` -/
inductive GameStatus
  | PLAYING (nextPlayer : Player)
  | WON (winner : Player) (winningLine : List Nat)
  | DRAW
deriving DecidableEq, Repr

/-- `computeStatus(board, nextPlayer)`: `const { winner, winningLine } = getWinner(board);
if (winner && winningLine) return WON; if (isDraw(board)) return DRAW; return PLAYING`. -/
def computeStatus (board : Board) (nextPlayer : Player) : GameStatus :=
  match getWinner board with
  | (some winner, some winningLine) => GameStatus.WON winner winningLine
  | _ => if isDraw board then GameStatus.DRAW else GameStatus.PLAYING nextPlayer

/-- The `scores` state: `{ X: number; O: number; draws: number }`. -/
structure Scores where
  X : Nat
  O : Nat
  draws : Nat
deriving DecidableEq, Repr

/-- The `App` component's state triple: `board`, `nextPlayer`, `scores`. -/
structure Session where
  board : Board
  nextPlayer : Player
  scores : Scores
deriving DecidableEq, Repr

/-- `status.kind === 'PLAYING'`. -/
def isPlaying : GameStatus → Bool
  | GameStatus.PLAYING _ => true
  | _ => false

/-- JavaScript read `prev[index]` as used in `applyMove`'s occupancy test
`prev[index] !== null`: an out-of-range (or negative) index gives
`undefined` (`none` here), distinct from `null` (`some none`). -/
def lookupCell (board : Board) (i : Int) : Option Cell :=
  if i < 0 then none else board[i.toNat]?

/-- `applyMove(index)`: reject unless the current status is PLAYING and the
target cell reads exactly `null`; otherwise place the mark, compute the
status of the new board for the opposite player, bump the matching score
counter on WON/DRAW, and advance `nextPlayer`. -/
def applyMove (s : Session) (index : Int) : Session :=
  if isPlaying (computeStatus s.board s.nextPlayer) = false then s
  else if lookupCell s.board index ≠ some none then s
  else
    let next := s.board.set index.toNat (some s.nextPlayer)
    let afterStatus := computeStatus next (oppositePlayer s.nextPlayer)
    let newScores :=
      match afterStatus with
      | GameStatus.WON w _ =>
        match w with
        | Player.X => { s.scores with X := s.scores.X + 1 }
        | Player.O => { s.scores with O := s.scores.O + 1 }
      | GameStatus.DRAW => { s.scores with draws := s.scores.draws + 1 }
      | GameStatus.PLAYING _ => s.scores
    { board := next, nextPlayer := oppositePlayer s.nextPlayer, scores := newScores }

/-- `restartRound(startingPlayer)`: `setBoard(createEmptyBoard()); setNextPlayer(startingPlayer)`. -/
def restartRound (s : Session) (startingPlayer : Player) : Session :=
  { s with board := createEmptyBoard, nextPlayer := startingPlayer }

/-- `resetScoresAndRestart()`: `setScores({ X: 0, O: 0, draws: 0 }); restartRound('X')`. -/
def resetScoresAndRestart (s : Session) : Session :=
  restartRound { s with scores := { X := 0, O := 0, draws := 0 } } Player.X

/-- The initial `useState` values: empty board, `'X'`, zero scores. -/
def initialSession : Session :=
  { board := createEmptyBoard, nextPlayer := Player.X,
    scores := { X := 0, O := 0, draws := 0 } }

/-- The three externally triggered operations of the session. -/
inductive Op
  | move (i : Int)
  | restart (p : Player)
  | reset
deriving DecidableEq, Repr

/-- One operation applied to the session state. -/
def step (s : Session) : Op → Session
  | Op.move i => applyMove s i
  | Op.restart p => restartRound s p
  | Op.reset => resetScoresAndRestart s

/-- A sequence of operations applied in order. -/
def runOps (s : Session) : List Op → Session
  | [] => s
  | op :: rest => runOps (step s op) rest

/-- A line's three cells all hold the same mark `p` (reading cells the way
`getWinner` does). -/
def winsLine (board : Board) : Nat × Nat × Nat → Player → Prop
  | (a, b, c), p =>
    cellAt board a = some p ∧ cellAt board b = some p ∧ cellAt board c = some p

instance (board : Board) (l : Nat × Nat × Nat) (p : Player) :
    Decidable (winsLine board l p) :=
  match l with
  | (_, _, _) => inferInstanceAs (Decidable (_ ∧ _ ∧ _))

/-- The move-acceptance test of `applyMove`: status PLAYING and the target
cell reads exactly `null`. -/
abbrev moveAccepted (s : Session) (i : Int) : Prop :=
  isPlaying (computeStatus s.board s.nextPlayer) = true ∧ lookupCell s.board i = some none

/-- The status `applyMove` computes for the new board after placing the
current player's mark at `i`. -/
def statusAfter (s : Session) (i : Int) : GameStatus :=
  computeStatus (s.board.set i.toNat (some s.nextPlayer)) (oppositePlayer s.nextPlayer)

/-! ### Characterization of the line scan -/

/-- If no line of `ls` is uniformly marked, the scan falls through to
`(none, none)`. -/
theorem getWinnerAux_eq_none_of_no_win (board : Board) :
    ∀ ls : List (Nat × Nat × Nat), (∀ l ∈ ls, ∀ p, ¬ winsLine board l p) →
      getWinnerAux board ls = (none, none) := by
  intro ls
  induction ls with
  | nil => intro _; rfl
  | cons hd tl ih =>
    obtain ⟨a, b, c⟩ := hd
    intro h
    have htl : ∀ l ∈ tl, ∀ p, ¬ winsLine board l p :=
      fun l hl => h l (List.mem_cons_of_mem _ hl)
    have hhd := h (a, b, c) (List.mem_cons_self _ _)
    cases hv : cellAt board a with
    | none => simp only [getWinnerAux, hv]; exact ih htl
    | some v =>
      simp only [getWinnerAux, hv]
      rw [if_neg]
      · exact ih htl
      · intro hc
        exact hhd v ⟨hv, hc.1, hc.2⟩

/-- If the scan falls through to `(none, none)`, no line of `ls` is uniformly
marked. -/
theorem no_win_of_getWinnerAux_eq_none (board : Board) :
    ∀ ls : List (Nat × Nat × Nat), getWinnerAux board ls = (none, none) →
      ∀ l ∈ ls, ∀ p, ¬ winsLine board l p := by
  intro ls
  induction ls with
  | nil => intro _ l hl; cases hl
  | cons hd tl ih =>
    obtain ⟨a, b, c⟩ := hd
    intro h l hl p hw
    cases hv : cellAt board a with
    | none =>
      simp only [getWinnerAux, hv] at h
      rcases List.mem_cons.mp hl with rfl | hl'
      · obtain ⟨hw1, _, _⟩ := hw
        rw [hv] at hw1
        cases hw1
      · exact ih h l hl' p hw
    | some v =>
      simp only [getWinnerAux, hv] at h
      by_cases hc : cellAt board b = some v ∧ cellAt board c = some v
      · rw [if_pos hc] at h
        cases h
      · rw [if_neg hc] at h
        rcases List.mem_cons.mp hl with rfl | hl'
        · obtain ⟨hw1, hw2, hw3⟩ := hw
          rw [hv] at hw1
          obtain rfl : v = p := Option.some.inj hw1
          exact hc ⟨hw2, hw3⟩
        · exact ih h l hl' p hw

/-- The scan returns either a winner together with a line, or neither. -/
theorem getWinnerAux_shape (board : Board) :
    ∀ ls : List (Nat × Nat × Nat),
      (∃ p wl, getWinnerAux board ls = (some p, some wl)) ∨
        getWinnerAux board ls = (none, none) := by
  intro ls
  induction ls with
  | nil => exact Or.inr rfl
  | cons hd tl ih =>
    obtain ⟨a, b, c⟩ := hd
    cases hv : cellAt board a with
    | none =>
      simp only [getWinnerAux, hv]
      exact ih
    | some v =>
      by_cases hc : cellAt board b = some v ∧ cellAt board c = some v
      · exact Or.inl ⟨v, [a, b, c], by simp only [getWinnerAux, hv, if_pos hc]⟩
      · simp only [getWinnerAux, hv, if_neg hc]
        exact ih

/-- When the scan reports a winner, it is the first uniformly marked line of
`ls`: every line strictly before it is not uniformly marked. -/
theorem getWinnerAux_eq_some_first (board : Board) :
    ∀ (ls : List (Nat × Nat × Nat)) (p : Player) (wl : List Nat),
      getWinnerAux board ls = (some p, some wl) →
      ∃ pre l post, ls = pre ++ l :: post ∧ wl = [l.1, l.2.1, l.2.2] ∧
        winsLine board l p ∧ ∀ x ∈ pre, ∀ q, ¬ winsLine board x q := by
  intro ls
  induction ls with
  | nil => intro p wl h; cases h
  | cons hd tl ih =>
    obtain ⟨a, b, c⟩ := hd
    intro p wl h
    cases hv : cellAt board a with
    | none =>
      simp only [getWinnerAux, hv] at h
      obtain ⟨pre, l, post, h1, h2, h3, h4⟩ := ih p wl h
      refine ⟨(a, b, c) :: pre, l, post, by rw [h1, List.cons_append], h2, h3, ?_⟩
      intro x hx q hw
      rcases List.mem_cons.mp hx with rfl | hx'
      · obtain ⟨hw1, _, _⟩ := hw
        rw [hv] at hw1
        cases hw1
      · exact h4 x hx' q hw
    | some v =>
      simp only [getWinnerAux, hv] at h
      by_cases hc : cellAt board b = some v ∧ cellAt board c = some v
      · rw [if_pos hc] at h
        injection h with h1 h2
        obtain rfl : v = p := Option.some.inj h1
        obtain rfl : wl = [a, b, c] := (Option.some.inj h2).symm
        exact ⟨[], (a, b, c), tl, rfl, rfl, ⟨hv, hc.1, hc.2⟩, fun x hx => by cases hx⟩
      · rw [if_neg hc] at h
        obtain ⟨pre, l, post, h1, h2, h3, h4⟩ := ih p wl h
        refine ⟨(a, b, c) :: pre, l, post, by rw [h1, List.cons_append], h2, h3, ?_⟩
        intro x hx q hw
        rcases List.mem_cons.mp hx with rfl | hx'
        · obtain ⟨hw1, hw2, hw3⟩ := hw
          rw [hv] at hw1
          obtain rfl : v = q := Option.some.inj hw1
          exact hc ⟨hw2, hw3⟩
        · exact h4 x hx' q hw

/-- `getWinner` returns either a winner together with a line, or neither. -/
theorem getWinner_shape (board : Board) :
    (∃ p wl, getWinner board = (some p, some wl)) ∨ getWinner board = (none, none) :=
  getWinnerAux_shape board WINNING_LINES

/-- A reported-`none` winner component forces the whole result to be
`(none, none)`. -/
theorem getWinner_fst_none (board : Board) (h : (getWinner board).1 = none) :
    getWinner board = (none, none) := by
  rcases getWinner_shape board with ⟨p, wl, hs⟩ | hn
  · rw [hs] at h
    cases h
  · exact hn

/-- When `getWinner` reports a winner and a line, `computeStatus` is WON. -/
theorem computeStatus_eq_won (board : Board) (np w : Player) (wl : List Nat)
    (h : getWinner board = (some w, some wl)) :
    computeStatus board np = GameStatus.WON w wl := by
  unfold computeStatus
  rw [h]

/-- With no winner, `computeStatus` decides between DRAW and PLAYING. -/
theorem computeStatus_eq_of_no_winner (board : Board) (np : Player)
    (h : getWinner board = (none, none)) :
    computeStatus board np =
      if isDraw board then GameStatus.DRAW else GameStatus.PLAYING np := by
  unfold computeStatus
  rw [h]

/-- A PLAYING result of `computeStatus` carries exactly the `nextPlayer`
argument. -/
theorem computeStatus_playing (board : Board) (q p : Player)
    (h : computeStatus board q = GameStatus.PLAYING p) : p = q := by
  rcases getWinner_shape board with ⟨w, wl, hs⟩ | hn
  · rw [computeStatus_eq_won board q w wl hs] at h
    cases h
  · rw [computeStatus_eq_of_no_winner board q hn] at h
    by_cases hd : isDraw board
    · rw [if_pos hd] at h
      cases h
    · rw [if_neg hd] at h
      exact (GameStatus.PLAYING.inj h).symm

/-! ### The claims -/

/-- C1: for every board, `getWinner` scans the 8 fixed winning lines in the
fixed order rows, columns, diagonals and returns the player and line of the
first line whose three referenced cells are all non-Empty and identical; if
no line of the board consists of 3 identical non-empty marks, it reports no
winner and no line. -/
theorem C1_getWinner_first_matching_line (board : Board) :
    WINNING_LINES =
      [(0, 1, 2), (3, 4, 5), (6, 7, 8), (0, 3, 6), (1, 4, 7), (2, 5, 8),
       (0, 4, 8), (2, 4, 6)] ∧
    ((∀ l ∈ WINNING_LINES, ∀ p, ¬ winsLine board l p) →
      getWinner board = (none, none)) ∧
    ((∃ l ∈ WINNING_LINES, ∃ p, winsLine board l p) →
      ∃ p wl, getWinner board = (some p, some wl)) ∧
    (∀ p wl, getWinner board = (some p, some wl) →
      ∃ pre l post, WINNING_LINES = pre ++ l :: post ∧ wl = [l.1, l.2.1, l.2.2] ∧
        winsLine board l p ∧ ∀ x ∈ pre, ∀ q, ¬ winsLine board x q) := by
  refine ⟨rfl, fun h => getWinnerAux_eq_none_of_no_win board WINNING_LINES h, ?_, ?_⟩
  · rintro ⟨l, hl, p, hw⟩
    rcases getWinner_shape board with hs | hn
    · exact hs
    · exact absurd hw (no_win_of_getWinnerAux_eq_none board WINNING_LINES hn l hl p)
  · exact fun p wl h => getWinnerAux_eq_some_first board WINNING_LINES p wl h

theorem C1_witness : getWinner (List.replicate 9 (none : Cell)) = (none, none) :=
  (C1_getWinner_first_matching_line (List.replicate 9 none)).2.1 (by decide)

/-- C2: for every board, `isDraw` is true iff every cell is non-Empty and
`getWinner` reports no winner. -/
theorem C2_isDraw_iff (board : Board) :
    isDraw board = true ↔
      (∀ c ∈ board, c ≠ none) ∧ (getWinner board).1 = none := by
  unfold isDraw
  simp only [Bool.and_eq_true, List.all_eq_true, decide_eq_true_eq]

theorem C2_witness :
    isDraw [some Player.X, some Player.X, some Player.O,
            some Player.O, some Player.O, some Player.X,
            some Player.X, some Player.O, some Player.X] = true :=
  (C2_isDraw_iff _).mpr (by decide)

/-- C3: `computeStatus` returns WON when `getWinner` yields a winner,
otherwise DRAW when `isDraw` holds, otherwise PLAYING with the given next
player; in particular a board with a winning line never reports DRAW (win is
checked before draw). -/
theorem C3_computeStatus_precedence (board : Board) (np : Player) :
    (∀ w l, getWinner board = (some w, some l) →
      computeStatus board np = GameStatus.WON w l) ∧
    ((getWinner board).1 = none → isDraw board = true →
      computeStatus board np = GameStatus.DRAW) ∧
    ((getWinner board).1 = none → isDraw board = false →
      computeStatus board np = GameStatus.PLAYING np) ∧
    (∀ w l, getWinner board = (some w, some l) →
      computeStatus board np ≠ GameStatus.DRAW) := by
  refine ⟨fun w l h => computeStatus_eq_won board np w l h, ?_, ?_, ?_⟩
  · intro h1 h2
    rw [computeStatus_eq_of_no_winner board np (getWinner_fst_none board h1), if_pos h2]
  · intro h1 h2
    rw [computeStatus_eq_of_no_winner board np (getWinner_fst_none board h1), if_neg]
    rw [h2]
    exact Bool.false_ne_true
  · intro w l h hc
    rw [computeStatus_eq_won board np w l h] at hc
    cases hc

theorem C3_witness :
    computeStatus [some Player.X, some Player.X, some Player.X,
                   some Player.O, some Player.O, none, none, none, none] Player.O =
      GameStatus.WON Player.X [0, 1, 2] :=
  (C3_computeStatus_precedence _ Player.O).1 Player.X [0, 1, 2] (by decide)

/-- A status passing `isPlaying` does not fail it. -/
theorem not_playing_false_of_true {g : GameStatus} (h : isPlaying g = true) :
    ¬ isPlaying g = false := by
  rw [h]
  simp

/-- `applyMove` is the identity when the current status is not PLAYING. -/
theorem applyMove_of_not_playing (s : Session) (i : Int)
    (h : isPlaying (computeStatus s.board s.nextPlayer) = false) :
    applyMove s i = s := by
  unfold applyMove
  rw [if_pos h]

/-- `applyMove` is the identity when the target cell does not read exactly
`null`. -/
theorem applyMove_of_occupied (s : Session) (i : Int)
    (h : lookupCell s.board i ≠ some none) : applyMove s i = s := by
  unfold applyMove
  by_cases hp : isPlaying (computeStatus s.board s.nextPlayer) = false
  · rw [if_pos hp]
  · rw [if_neg hp, if_pos h]

/-- The accepted branch of `applyMove`, written out as one record. -/
theorem applyMove_accepted_eq (s : Session) (i : Int)
    (hp : isPlaying (computeStatus s.board s.nextPlayer) = true)
    (hc : lookupCell s.board i = some none) :
    applyMove s i =
      { board := s.board.set i.toNat (some s.nextPlayer),
        nextPlayer := oppositePlayer s.nextPlayer,
        scores :=
          match statusAfter s i with
          | GameStatus.WON Player.X _ => { s.scores with X := s.scores.X + 1 }
          | GameStatus.WON Player.O _ => { s.scores with O := s.scores.O + 1 }
          | GameStatus.DRAW => { s.scores with draws := s.scores.draws + 1 }
          | GameStatus.PLAYING _ => s.scores } := by
  unfold applyMove statusAfter
  rw [if_neg (not_playing_false_of_true hp), if_neg (not_not_intro hc)]
  cases h : computeStatus (s.board.set i.toNat (some s.nextPlayer))
      (oppositePlayer s.nextPlayer) with
  | PLAYING q => simp [h]
  | WON w l => cases w <;> simp [h]
  | DRAW => simp [h]

/-- A successful `null` read through `lookupCell` pins down the index and the
raw list read. -/
theorem lookupCell_empty (board : Board) (i : Int)
    (h : lookupCell board i = some none) :
    ¬ i < 0 ∧ board[i.toNat]? = some none := by
  unfold lookupCell at h
  by_cases hi : i < 0
  · rw [if_pos hi] at h
    cases h
  · rw [if_neg hi] at h
    exact ⟨hi, h⟩

/-- C4: an `applyMove` on a session whose current status is Won or Draw, or
whose target cell is occupied by a mark, leaves the whole session (board,
nextPlayer, scores) unchanged; rejection is a silent no-op. -/
theorem C4_applyMove_rejection (s : Session) (i : Int)
    (_hi : 0 ≤ i ∧ i ≤ 8)
    (hrej : (∃ w l, computeStatus s.board s.nextPlayer = GameStatus.WON w l) ∨
            computeStatus s.board s.nextPlayer = GameStatus.DRAW ∨
            (∃ q, lookupCell s.board i = some (some q))) :
    applyMove s i = s := by
  rcases hrej with ⟨w, l, hw⟩ | hd | ⟨q, ho⟩
  · refine applyMove_of_not_playing s i ?_
    rw [hw]
    rfl
  · refine applyMove_of_not_playing s i ?_
    rw [hd]
    rfl
  · refine applyMove_of_occupied s i ?_
    rw [ho]
    simp

theorem C4_witness :
    applyMove { board := [some Player.X, some Player.X, some Player.X,
                          some Player.O, some Player.O, none, none, none, none],
                nextPlayer := Player.O,
                scores := { X := 1, O := 0, draws := 0 } } 5 =
      { board := [some Player.X, some Player.X, some Player.X,
                  some Player.O, some Player.O, none, none, none, none],
        nextPlayer := Player.O,
        scores := { X := 1, O := 0, draws := 0 } } :=
  C4_applyMove_rejection _ 5 ⟨by decide, by decide⟩
    (Or.inl ⟨Player.X, [0, 1, 2], by decide⟩)

/-- C5: when the current status is Playing(p) and the target cell is Empty,
`applyMove` places p's mark at the index leaving all other cells unchanged,
advances `nextPlayer` to the opposite of p, and the new status is the one
computed from the new board and the opposite of p. -/
theorem C5_applyMove_accepts (s : Session) (i : Int) (p : Player)
    (hstat : computeStatus s.board s.nextPlayer = GameStatus.PLAYING p)
    (hcell : lookupCell s.board i = some none)
    (_hi : 0 ≤ i ∧ i ≤ 8) :
    (applyMove s i).board = s.board.set i.toNat (some p) ∧
    (applyMove s i).board[i.toNat]? = some (some p) ∧
    (∀ j, j ≠ i.toNat → (applyMove s i).board[j]? = s.board[j]?) ∧
    (applyMove s i).nextPlayer = oppositePlayer p ∧
    computeStatus (applyMove s i).board (applyMove s i).nextPlayer =
      computeStatus (s.board.set i.toNat (some p)) (oppositePlayer p) := by
  obtain rfl : p = s.nextPlayer := computeStatus_playing s.board s.nextPlayer p hstat
  have hp : isPlaying (computeStatus s.board s.nextPlayer) = true := by
    rw [hstat]
    rfl
  have heq := applyMove_accepted_eq s i hp hcell
  obtain ⟨-, hread⟩ := lookupCell_empty s.board i hcell
  have hlt : i.toNat < s.board.length := (List.getElem?_eq_some.mp hread).1
  refine ⟨by rw [heq], ?_, ?_, by rw [heq], ?_⟩
  · rw [heq]
    exact List.getElem?_set_eq_of_lt _ hlt
  · intro j hj
    rw [heq]
    exact List.getElem?_set_ne (fun he => hj he.symm)
  · rw [heq]

theorem C5_witness :
    (applyMove initialSession 4).board[(4 : Int).toNat]? = some (some Player.X) ∧
    (applyMove initialSession 4).board[0]? = initialSession.board[0]? ∧
    (applyMove initialSession 4).nextPlayer = oppositePlayer Player.X :=
  ⟨(C5_applyMove_accepts initialSession 4 Player.X (by decide) (by decide)
      ⟨by decide, by decide⟩).2.1,
   (C5_applyMove_accepts initialSession 4 Player.X (by decide) (by decide)
      ⟨by decide, by decide⟩).2.2.1 0 (by decide),
   (C5_applyMove_accepts initialSession 4 Player.X (by decide) (by decide)
      ⟨by decide, by decide⟩).2.2.2.1⟩

/-- A session two marks short of an X win in the top row, X to move. -/
def demoNearWin : Session :=
  { board := [some Player.X, some Player.X, none,
              some Player.O, some Player.O, none, none, none, none],
    nextPlayer := Player.X,
    scores := { X := 0, O := 0, draws := 0 } }

/-- C6: an accepted move whose resulting status is Won(w) bumps exactly w's
counter by 1; one resulting in Draw bumps exactly the draws counter by 1; an
accepted move resulting in Playing, a rejected move, and `restartRound` all
leave the scores unchanged. -/
theorem C6_score_transitions (s : Session) (i : Int) (p : Player) :
    (moveAccepted s i →
      (∀ l, statusAfter s i = GameStatus.WON Player.X l →
        (applyMove s i).scores = { s.scores with X := s.scores.X + 1 }) ∧
      (∀ l, statusAfter s i = GameStatus.WON Player.O l →
        (applyMove s i).scores = { s.scores with O := s.scores.O + 1 }) ∧
      (statusAfter s i = GameStatus.DRAW →
        (applyMove s i).scores = { s.scores with draws := s.scores.draws + 1 }) ∧
      (∀ q, statusAfter s i = GameStatus.PLAYING q →
        (applyMove s i).scores = s.scores)) ∧
    (¬ moveAccepted s i → (applyMove s i).scores = s.scores) ∧
    (restartRound s p).scores = s.scores := by
  refine ⟨?_, ?_, rfl⟩
  · rintro ⟨hp, hc⟩
    have heq := applyMove_accepted_eq s i hp hc
    refine ⟨?_, ?_, ?_, ?_⟩
    · intro l h
      rw [heq]
      simp only [h]
    · intro l h
      rw [heq]
      simp only [h]
    · intro h
      rw [heq]
      simp only [h]
    · intro q h
      rw [heq]
      simp only [h]
  · intro hrej
    by_cases hp : isPlaying (computeStatus s.board s.nextPlayer) = true
    · have hc : lookupCell s.board i ≠ some none := fun hc => hrej ⟨hp, hc⟩
      rw [applyMove_of_occupied s i hc]
    · have hp' : isPlaying (computeStatus s.board s.nextPlayer) = false :=
        Bool.eq_false_iff.mpr hp
      rw [applyMove_of_not_playing s i hp']

theorem C6_witness :
    (applyMove demoNearWin 2).scores =
      { demoNearWin.scores with X := demoNearWin.scores.X + 1 } :=
  ((C6_score_transitions demoNearWin 2 Player.X).1 (by decide)).1 [0, 1, 2] (by decide)

/-- C7: `restartRound` empties the board, hands the turn to the given
starting player, leaves the scores untouched, and the resulting status is
Playing(startingPlayer); it has no preconditions. -/
theorem C7_restartRound (s : Session) (p : Player) :
    (restartRound s p).board = List.replicate 9 none ∧
    (restartRound s p).nextPlayer = p ∧
    (restartRound s p).scores = s.scores ∧
    computeStatus (restartRound s p).board (restartRound s p).nextPlayer =
      GameStatus.PLAYING p := by
  refine ⟨rfl, rfl, rfl, ?_⟩
  have h1 : getWinner createEmptyBoard = (none, none) := by decide
  have h2 : isDraw createEmptyBoard = false := by decide
  show computeStatus createEmptyBoard p = GameStatus.PLAYING p
  rw [computeStatus_eq_of_no_winner _ p h1]
  simp [h2]

/-- C8: `resetScoresAndRestart` zeroes the scores, empties the board, hands
the turn to X, and the resulting status is Playing(X); it always succeeds. -/
theorem C8_resetScoresAndRestart (s : Session) :
    (resetScoresAndRestart s).scores = { X := 0, O := 0, draws := 0 } ∧
    (resetScoresAndRestart s).board = List.replicate 9 none ∧
    (resetScoresAndRestart s).nextPlayer = Player.X ∧
    computeStatus (resetScoresAndRestart s).board
        (resetScoresAndRestart s).nextPlayer = GameStatus.PLAYING Player.X := by
  refine ⟨rfl, rfl, rfl, ?_⟩
  have h1 : getWinner createEmptyBoard = (none, none) := by decide
  have h2 : isDraw createEmptyBoard = false := by decide
  show computeStatus createEmptyBoard Player.X = GameStatus.PLAYING Player.X
  rw [computeStatus_eq_of_no_winner _ Player.X h1]
  simp [h2]

/-- The in-range constraint on operations: moves address cells 0–8. -/
def opInRange : Op → Prop
  | Op.move i => 0 ≤ i ∧ i ≤ 8
  | Op.restart _ => True
  | Op.reset => True

instance : (op : Op) → Decidable (opInRange op)
  | Op.move _ => inferInstanceAs (Decidable (_ ∧ _))
  | Op.restart _ => inferInstanceAs (Decidable True)
  | Op.reset => inferInstanceAs (Decidable True)

/-- `applyMove` never changes the board's length. -/
theorem applyMove_board_length (s : Session) (i : Int) :
    (applyMove s i).board.length = s.board.length := by
  by_cases hp : isPlaying (computeStatus s.board s.nextPlayer) = true
  · by_cases hc : lookupCell s.board i = some none
    · rw [applyMove_accepted_eq s i hp hc]
      simp
    · rw [applyMove_of_occupied s i hc]
  · rw [applyMove_of_not_playing s i (Bool.eq_false_iff.mpr hp)]

/-- Each operation keeps a 9-cell board at 9 cells. -/
theorem step_board_length (s : Session) (op : Op) (h : s.board.length = 9) :
    (step s op).board.length = 9 := by
  cases op with
  | move i =>
    show (applyMove s i).board.length = 9
    rw [applyMove_board_length]
    exact h
  | restart p => rfl
  | reset => rfl

/-- Board length 9 is preserved by any operation sequence. -/
theorem runOps_board_length :
    ∀ (ops : List Op) (s : Session), s.board.length = 9 →
      (runOps s ops).board.length = 9
  | [], _, h => h
  | op :: rest, s, h =>
    runOps_board_length rest (step s op) (step_board_length s op h)

/-- C9: every board reachable from the initial session through `applyMove`
(with indices in [0,8]), `restartRound`, and `resetScoresAndRestart` has
exactly 9 cells. -/
theorem C9_board_length_invariant (ops : List Op)
    (_h : ∀ op ∈ ops, opInRange op) :
    (runOps initialSession ops).board.length = 9 :=
  runOps_board_length ops initialSession rfl

theorem C9_witness :
    (runOps initialSession
      [Op.move 0, Op.restart Player.O, Op.move 4, Op.reset,
       Op.move 8]).board.length = 9 :=
  C9_board_length_invariant _ (by decide)

/-- C10: on a 9-cell board, `applyMove` with any integer index outside [0,8]
reads no cell value at all (the lookup yields neither a mark nor Empty), so
the occupied-cell rejection fires and the session is unchanged. -/
theorem C10_out_of_range_noop (s : Session) (i : Int)
    (hlen : s.board.length = 9) (hi : i < 0 ∨ 8 < i) :
    lookupCell s.board i = none ∧ applyMove s i = s := by
  have hlc : lookupCell s.board i = none := by
    unfold lookupCell
    rcases hi with hi | hi
    · rw [if_pos hi]
    · rw [if_neg (by omega)]
      refine List.getElem?_eq_none ?_
      rw [hlen]
      omega
  refine ⟨hlc, applyMove_of_occupied s i ?_⟩
  rw [hlc]
  simp

theorem C10_witness :
    lookupCell initialSession.board 9 = none ∧
      applyMove initialSession 9 = initialSession :=
  C10_out_of_range_noop initialSession 9 rfl (Or.inr (by decide))

end TicTacToe
